import Mathlib

/-!
Verification of the elaboration core of the slang hardware-description-language
compiler (Definition, instance symbols, unknown-module fallback, ScriptSession).

Pure declarations from the headers under src/ are translated directly; where a
member function's body lives in an implementation file that is not part of the
provided sources, the behaviour is modelled from the specification, and the
corresponding definition says so in its doc comment.
-/

namespace Slang

/-! ## Definition and its monotonic `instantiated` flag (Definition.h) -/

/-- The `Definition` state relevant to the `instantiated` flag.  In
`Definition.h` the private member `mutable bool instantiated = false;` is the
only mutable state of the class; `name` stands for the remaining immutable
metadata. -/
structure Definition where
  name : String
  instantiated : Bool
deriving Repr, DecidableEq

/-- Construction of a `Definition`: the field initializer
`mutable bool instantiated = false;` makes the flag start out false. -/
def Definition.create (name : String) : Definition :=
  { name := name, instantiated := false }

/-- `bool isInstantiated() const { return instantiated; }` -/
def Definition.isInstantiated (d : Definition) : Bool :=
  d.instantiated

/-- `void noteInstantiated() const { instantiated = true; }` -/
def Definition.noteInstantiated (d : Definition) : Definition :=
  { d with instantiated := true }

/-- The operations available on a `Definition` after construction, as declared
in `Definition.h`.  `noteInstantiated` is the only member that assigns the
private `instantiated` flag; the remaining members are queries.  Modelled from
the spec: the query members (`getKindString`, `getArticleKindString`,
`isInstantiated`, `getHierarchicalPath`), whose bodies are outside the provided
sources, leave the flag untouched ("a monotonic `instantiated` flag
(false→true only)"). -/
inductive DefinitionOp
  | noteInstantiated
  | getKindString
  | getArticleKindString
  | isInstantiated
  | getHierarchicalPath
deriving Repr, DecidableEq

/-- Effect of one `Definition` member call on the definition's state. -/
def Definition.applyOp (d : Definition) : DefinitionOp → Definition
  | .noteInstantiated => d.noteInstantiated
  | .getKindString => d
  | .getArticleKindString => d
  | .isInstantiated => d
  | .getHierarchicalPath => d

/-- Effect of a sequence of member calls. -/
def Definition.applyOps (d : Definition) (ops : List DefinitionOp) : Definition :=
  ops.foldl Definition.applyOp d

/-! ## Instance bodies and `hasSameType` (InstanceSymbols.h) -/

/-- A resolved parameter of an instance body: either a type parameter (its
resolved type, identified by a canonical type identity) or a value parameter
(its resolved constant value).  Modelled from the spec: the body of
`InstanceBodySymbol::hasSameType` is outside the provided sources; the spec
says parameter lists are compared "type parameters by type identity, value
parameters by value equality". -/
inductive ResolvedParam
  | typeParam (typeId : Nat)
  | valueParam (value : Int)
deriving Repr, DecidableEq

/-- Whether two resolved parameters match: type parameters by type identity,
value parameters by value equality; a type parameter never matches a value
parameter. -/
def paramMatches : ResolvedParam → ResolvedParam → Bool
  | .typeParam a, .typeParam b => a == b
  | .valueParam a, .valueParam b => a == b
  | _, _ => false

/-- The part of `InstanceBodySymbol` that `hasSameType` consults: the identity
of the `Definition` the body was built from, and its resolved parameter list
(`span<const ParameterSymbolBase* const> parameters`). -/
structure InstanceBodySymbol where
  definitionId : Nat
  parameters : List ResolvedParam
deriving Repr, DecidableEq

/-- Modelled from the spec: `InstanceBodySymbol::hasSameType` — "true iff both
were built from the same Definition and their resolved parameter lists match
pairwise". -/
def InstanceBodySymbol.hasSameType (a b : InstanceBodySymbol) : Bool :=
  a.definitionId == b.definitionId &&
    a.parameters.length == b.parameters.length &&
    (List.zip a.parameters b.parameters).all fun p => paramMatches p.1 p.2

/-! ## UnknownModuleSymbol (InstanceSymbols.h) -/

/-- A port connection as written at the instantiation site: positional
(ordered) connection syntax carries only the actual expression; named
connection syntax also carries the formal port name.  Expressions are
identified by an id. -/
inductive PortConnectionStx
  | ordered (expr : Nat)
  | named (portName : String) (expr : Nat)
deriving Repr, DecidableEq

/-- The pieces of a hierarchy-instantiation statement that the fallback path
consults: the instantiated name, the parameter-assignment expressions, the port
connections, and whether the argument syntax has a shape only legal for
checker instances. -/
structure HierarchyInstantiationStx where
  moduleName : String
  paramExprs : List Nat
  portConns : List PortConnectionStx
  checkerLikeArgs : Bool
deriving Repr, DecidableEq

/-- A diagnostic issued during elaboration. -/
inductive Diagnostic
  | unknownModule (name : String)
  | otherDiag (code : Nat)
deriving Repr, DecidableEq

/-- `UnknownModuleSymbol`: stores the unresolved module name, the
self-determined parameter expressions, and (for the lazily computed, cached
queries) the instantiation it came from. -/
structure UnknownModuleSymbol where
  name : String
  moduleName : String
  paramExpressions : List Nat
  stx : HierarchyInstantiationStx
deriving Repr, DecidableEq

/-- Modelled from the spec: `UnknownModuleSymbol::getPortConnections` — the
self-determined expressions assigned to the ports, derived from the stored
instantiation's port connections; it emits no diagnostic (second component). -/
def UnknownModuleSymbol.getPortConnections (u : UnknownModuleSymbol) :
    List Nat × List Diagnostic :=
  (u.stx.portConns.map fun c =>
    match c with
    | .ordered e => e
    | .named _ e => e, [])

/-- Modelled from the spec and the header's doc comment:
`UnknownModuleSymbol::getPortNames` — one name per connected port; when
ordered connection syntax was used the associated name is the empty string;
emits no diagnostic. -/
def UnknownModuleSymbol.getPortNames (u : UnknownModuleSymbol) :
    List String × List Diagnostic :=
  (u.stx.portConns.map fun c =>
    match c with
    | .ordered _ => ""
    | .named n _ => n, [])

/-- Modelled from the spec: `UnknownModuleSymbol::isChecker` — a best-effort
classification inferred from the instantiation-argument syntax shape; emits no
diagnostic. -/
def UnknownModuleSymbol.isChecker (u : UnknownModuleSymbol) :
    Bool × List Diagnostic :=
  (u.stx.checkerLikeArgs, [])

/-! ## Instance arrays (InstanceSymbols.h) -/

/-- `ConstantRange`: a constant index range `[lo, hi]` with `lo ≤ hi` when it
describes an instance array built over that range. -/
structure ConstantRange where
  lo : Int
  hi : Int
deriving Repr, DecidableEq

/-- The part of an element instance symbol that the array-expansion claims
consult: its name and its `arrayPath` (ordered array coordinates,
outermost first). -/
structure InstanceElement where
  name : String
  arrayPath : List Int
deriving Repr, DecidableEq

/-- Modelled from the spec: expansion of a declarator with an unpacked array
dimension `[lo, hi]` into individually built instance symbols "with
incrementing array-path coordinates" — element `i` extends the enclosing
array path with the coordinate `lo + i`. -/
def buildArrayElements (basePath : List Int) (instName : String) (lo hi : Int) :
    List InstanceElement :=
  (List.range (hi - lo + 1).toNat).map fun (i : Nat) =>
    { name := instName, arrayPath := basePath ++ [lo + (i : Int)] }

/-- `InstanceArraySymbol`: holds the ordered element sequence and the index
range, as stored by the constructor inline in `InstanceSymbols.h`. -/
structure InstanceArraySymbol where
  name : String
  elements : List InstanceElement
  range : ConstantRange
deriving Repr, DecidableEq

/-- Modelled from the spec: construction of an `InstanceArraySymbol` over an
index range `[lo, hi]` from the expanded elements. -/
def createInstanceArray (basePath : List Int) (instName : String) (lo hi : Int) :
    InstanceArraySymbol :=
  { name := instName,
    elements := buildArrayElements basePath instName lo hi,
    range := { lo := lo, hi := hi } }

/-! ## Hierarchical paths and array dimensions (Definition.h, InstanceSymbols.h) -/

/-- One element of a rendered hierarchical path: a dotted identifier or an
array coordinate in brackets. -/
inductive PathElem
  | ident (s : String)
  | coord (i : Int)
deriving Repr, DecidableEq

/-- Extracts the coordinate carried by a path element, if any. -/
def PathElem.coordOf : PathElem → Option Int
  | .ident _ => none
  | .coord i => some i

/-- One instance array enclosing a symbol: its index range and the coordinate
the symbol occupies in it. -/
structure EnclosingArray where
  range : ConstantRange
  index : Int
deriving Repr, DecidableEq

/-- An instance nested in instance arrays, together with the chain of
enclosing arrays recorded innermost enclosure first — the order in which a
walk upward through parent scopes encounters them. -/
structure ArrayedInstance where
  outerScopes : List String
  arrayName : String
  up : List EnclosingArray
  defName : String
deriving Repr, DecidableEq

/-- Renders the coordinates contributed by the enclosing arrays: the parent
(outer) arrays are rendered before the bracketed coordinate of the current
level, so the recursion emits the enclosing coordinates first. -/
def renderCoords : List EnclosingArray → List PathElem
  | [] => []
  | a :: rest => renderCoords rest ++ [PathElem.coord a.index]

/-- Modelled from the spec: `getHierarchicalPath` renders the enclosing scopes
outermost first, then the instance-array name followed by one bracketed
coordinate per enclosing array, then the final name — a dotted/indexed path in
the style of `top.sub[2].leaf`. -/
def getHierarchicalPath (s : ArrayedInstance) : List PathElem :=
  s.outerScopes.map PathElem.ident ++
    (PathElem.ident s.arrayName :: renderCoords s.up) ++ [PathElem.ident s.defName]

/-- Modelled from the spec: `InstanceSymbolBase::getArrayDimensions` walks
upward through the nested instance arrays and inserts each encountered range
at the front of the dimension list, producing the outer-to-inner order. -/
def getArrayDimensions (s : ArrayedInstance) : List ConstantRange :=
  s.up.foldl (fun dims a => a.range :: dims) []

/-! ## Depth-bounded elaboration and cyclic instantiation (InstanceSymbols.h) -/

/-- A definition together with the names of the definitions its body
instantiates with no parameter change. -/
structure DefnNode where
  name : String
  children : List String
deriving Repr, DecidableEq

/-- Looks up a definition by name in the compilation. -/
def findDefn (defs : List DefnNode) (n : String) : Option DefnNode :=
  defs.find? fun d => d.name == n

/-- Diagnostics that depth-bounded elaboration can issue. -/
inductive ElabDiag
  | maxInstanceDepthExceeded
  | unknownModule (n : String)
deriving Repr, DecidableEq

/-- Modelled from the spec: elaboration via `InstanceBodySymbol::fromDefinition`
descends through instantiations carrying a depth counter; when the counter is
exhausted it reports a fatal max-instance-depth diagnostic and stops descending
instead of recursing unboundedly. -/
def elabDefn (defs : List DefnNode) : Nat → String → List ElabDiag
  | 0, _ => [ElabDiag.maxInstanceDepthExceeded]
  | depth + 1, n =>
    match findDefn defs n with
    | none => [ElabDiag.unknownModule n]
    | some d => (d.children.map (elabDefn defs depth)).flatten

/-- `a` instantiates `b` in one or more steps, each with no parameter change. -/
inductive InstPath (defs : List DefnNode) : String → String → Prop
  | step {a b : String} {d : DefnNode} : findDefn defs a = some d →
      b ∈ d.children → InstPath defs a b
  | trans {a b c : String} : InstPath defs a b → InstPath defs b c →
      InstPath defs a c

/-! ## Parameter resolution: createDefault and createInvalid -/

/-- The default (initializer) a parameter declaration may carry: a constant
value for a value parameter, a type identity for a type parameter. -/
inductive ParamDefault
  | value (v : Int)
  | type (t : Nat)
deriving Repr, DecidableEq

/-- `Definition::ParameterDecl` as the default-resolution paths consult it:
its name and its default, if any.  Modelled from the spec: `hasDefault`'s body
is outside the provided sources; a parameter has a default iff it carries an
initializer. -/
structure ParameterDecl where
  name : String
  defaultVal : Option ParamDefault
deriving Repr, DecidableEq

/-- `Definition::ParameterDecl::hasDefault`. -/
def ParameterDecl.hasDefault (p : ParameterDecl) : Bool :=
  p.defaultVal.isSome

/-- A resolved parameter value: a concrete value or type, or the poison value
used when resolution failed or was forced to null. -/
inductive ParamValue
  | value (v : Int)
  | type (t : Nat)
  | poisoned
deriving Repr, DecidableEq

/-- A definition together with its ordered parameter declarations. -/
structure DefinitionWithParams where
  name : String
  parameters : List ParameterDecl
deriving Repr, DecidableEq

/-- Diagnostics of parameter resolution. -/
inductive ParamDiag
  | noDefaultValue (paramName : String)
deriving Repr, DecidableEq

/-- Modelled from the spec: default-only resolution of one parameter — "every
parameter must resolve from its default"; a parameter without a default gets a
poisoned value and one diagnostic. -/
def resolveFromDefault (p : ParameterDecl) : (String × ParamValue) × List ParamDiag :=
  match p.defaultVal with
  | some (.value v) => ((p.name, .value v), [])
  | some (.type t) => ((p.name, .type t), [])
  | none => ((p.name, .poisoned), [ParamDiag.noDefaultValue p.name])

/-- Modelled from the spec: `InstanceSymbol::createDefault` — default-only
instantiation resolving every declared parameter from its default; returns the
resolved parameter environment and the diagnostics it emitted. -/
def createDefault (d : DefinitionWithParams) :
    List (String × ParamValue) × List ParamDiag :=
  (d.parameters.map fun p => (resolveFromDefault p).1,
   (d.parameters.map fun p => (resolveFromDefault p).2).flatten)

/-- Modelled from the spec: `InstanceSymbol::createInvalid` — "creates an
intentionally invalid instance by forcing all parameters to null values"; the
resolved environment maps every declared parameter to the poison value. -/
def createInvalid (d : DefinitionWithParams) : List (String × ParamValue) :=
  d.parameters.map fun p => (p.name, ParamValue.poisoned)

/-- Looks a parameter up in a resolved environment. -/
def lookupParam (env : List (String × ParamValue)) (n : String) : Option ParamValue :=
  (env.find? fun q => q.1 == n).map Prod.snd

/-- A member expression of an instance body, as far as type checking is
concerned: a literal, a reference to a parameter, or a compound expression. -/
inductive MemberExpr
  | lit (v : Int)
  | paramRef (n : String)
  | binop (a b : MemberExpr)
deriving Repr, DecidableEq

/-- Whether a member expression depends on some parameter. -/
def MemberExpr.dependsOnParam : MemberExpr → Bool
  | .lit _ => false
  | .paramRef _ => true
  | .binop a b => a.dependsOnParam || b.dependsOnParam

/-- A member's computed type: a normal integral type or the error type. -/
inductive MemberType
  | intType
  | errorType
deriving Repr, DecidableEq

/-- Modelled from the spec: type checking a member expression against a
resolved parameter environment; an expression touching a poisoned parameter
"degrades to an error type rather than causing further resolution failures" —
the function is total and never fails. -/
def typeOfMember (env : List (String × ParamValue)) : MemberExpr → MemberType
  | .lit _ => .intType
  | .paramRef n =>
    match lookupParam env n with
    | some (.value _) => .intType
    | some (.type _) => .intType
    | some .poisoned => .errorType
    | none => .errorType
  | .binop a b =>
    match typeOfMember env a, typeOfMember env b with
    | .intType, .intType => .intType
    | _, _ => .errorType

/-- A definition available for name lookup during instantiation. -/
structure DefinitionEntry where
  name : String
deriving Repr, DecidableEq

/-- Name lookup for a referenced definition. -/
def lookupDefinition (defs : List DefinitionEntry) (n : String) :
    Option DefinitionEntry :=
  defs.find? fun d => d.name == n

/-- Result of instantiating one declarator. -/
inductive InstantiationResult
  | resolved (defName : String)
  | unknown (u : UnknownModuleSymbol)
deriving Repr, DecidableEq

/-- Modelled from the spec: the instantiation entry point
(`UnknownModuleSymbol::fromSyntax` fallback inside `InstanceSymbol::fromSyntax`)
— when the named definition does not resolve, it emits exactly one diagnostic
and yields an `UnknownModuleSymbol` capturing the unresolved name and the
self-determined parameter expressions. -/
def instantiateFromStx (defs : List DefinitionEntry) (instName : String)
    (stx : HierarchyInstantiationStx) : InstantiationResult × List Diagnostic :=
  match lookupDefinition defs stx.moduleName with
  | some d => (.resolved d.name, [])
  | none =>
      (.unknown { name := instName, moduleName := stx.moduleName,
                  paramExpressions := stx.paramExprs, stx := stx },
       [Diagnostic.unknownModule stx.moduleName])

/-! ## ScriptSession::eval (ScriptSession.cpp) -/

/-- The syntax kinds `ScriptSession::eval` distinguishes: the declaration-form
kinds named in its switch, representative expression kinds (recognized by
`ExpressionSyntax::isKind`), representative statement kinds (recognized by
`StatementSyntax::isKind`), and a kind that is none of these. -/
inductive SyntaxKind
  | ParameterDeclarationStatement
  | FunctionDeclaration
  | TaskDeclaration
  | InterfaceDeclaration
  | ModuleDeclaration
  | HierarchyInstantiation
  | TypedefDeclaration
  | DataDeclaration
  | CompilationUnit
  | IdentifierName
  | IntegerLiteralExpression
  | AddExpression
  | ConditionalExpression
  | ExpressionStatement
  | ConditionalStatement
  | ForLoopStatement
  | ArgumentList
deriving Repr, DecidableEq

/-- `ExpressionSyntax::isKind` for the kinds modelled here. -/
def isExpressionKind : SyntaxKind → Bool
  | .IdentifierName | .IntegerLiteralExpression | .AddExpression
  | .ConditionalExpression => true
  | _ => false

/-- `StatementSyntax::isKind` for the kinds modelled here. -/
def isStatementKind : SyntaxKind → Bool
  | .ExpressionStatement | .ConditionalStatement | .ForLoopStatement => true
  | _ => false

/-- The declaration-form kinds: exactly the kinds the switch in
`ScriptSession::eval` handles by name. -/
def isDeclarationForm : SyntaxKind → Bool
  | .ParameterDeclarationStatement | .FunctionDeclaration | .TaskDeclaration
  | .InterfaceDeclaration | .ModuleDeclaration | .HierarchyInstantiation
  | .TypedefDeclaration | .DataDeclaration | .CompilationUnit => true
  | _ => false

/-- A parsed syntax node: its kind and its child members (used by the
compilation-unit and data-declaration paths). -/
inductive SyntaxNode
  | mk (kind : SyntaxKind) (members : List SyntaxNode)

/-- The kind of a syntax node. -/
def SyntaxNode.kind : SyntaxNode → SyntaxKind
  | .mk k _ => k

/-- The child members of a syntax node. -/
def SyntaxNode.members : SyntaxNode → List SyntaxNode
  | .mk _ m => m

/-- `ConstantValue`: `none` models the null constant value (`nullptr`). -/
abbrev ConstantValue := Option Int

/-- The script session's mutable state: the members added to its scope and the
locals created in its evaluation context. -/
structure ScriptSession where
  scopeMembers : List SyntaxNode
  locals : List ConstantValue

/-- `scope.addMembers(node)`. -/
def ScriptSession.addMembers (s : ScriptSession) (n : SyntaxNode) : ScriptSession :=
  { s with scopeMembers := s.scopeMembers ++ [n] }

/-- The `DataDeclaration` branch: each declared variable symbol is added to the
scope, its initializer is evaluated, and a local is created holding the
initial value. -/
def ScriptSession.declareData (evalE : ScriptSession → SyntaxNode → ConstantValue)
    (s : ScriptSession) (n : SyntaxNode) : ScriptSession :=
  n.members.foldl
    (fun st decl =>
      { st with
        scopeMembers := st.scopeMembers ++ [decl],
        locals := st.locals ++ [evalE st decl] })
    s

/-- `ScriptSession::evalStatement`: binds the statement into a block added to
the scope and evaluates it for its side effects. -/
def ScriptSession.evalStatement (s : ScriptSession) (n : SyntaxNode) : ScriptSession :=
  { s with scopeMembers := s.scopeMembers ++ [n] }

/-- Outcome of `ScriptSession::eval`: a constant value together with the
updated session, or the `ASSUME_UNREACHABLE` case for a root construct the
session does not support. -/
inductive EvalOutcome
  | value (v : ConstantValue) (s : ScriptSession)
  | unsupportedConstruct

/-- `ScriptSession::eval`, translated from `ScriptSession.cpp`.  `evalE` stands
for the external expression binder/evaluator behind `evalExpression`
(`Expression::bind` + `eval`), a black box that may itself produce the null
constant value.  The switch returns the null constant value for every
declaration-form kind; only the expression branch forwards a possibly
non-null value. -/
def ScriptSession.eval (evalE : ScriptSession → SyntaxNode → ConstantValue)
    (s : ScriptSession) (node : SyntaxNode) : EvalOutcome :=
  match node.kind with
  | .ParameterDeclarationStatement
  | .FunctionDeclaration
  | .TaskDeclaration
  | .InterfaceDeclaration
  | .ModuleDeclaration
  | .HierarchyInstantiation
  | .TypedefDeclaration => .value none (s.addMembers node)
  | .DataDeclaration => .value none (s.declareData evalE node)
  | .CompilationUnit => .value none (node.members.foldl ScriptSession.addMembers s)
  | k =>
    if isExpressionKind k then .value (evalE s node) s
    else if isStatementKind k then .value none (s.evalStatement node)
    else .unsupportedConstruct

/-! ## Theorems -/

theorem applyOp_preserves_true (d : Definition) (op : DefinitionOp)
    (h : d.isInstantiated = true) : (d.applyOp op).isInstantiated = true := by
  cases op <;> simp [Definition.applyOp, Definition.noteInstantiated,
    Definition.isInstantiated] <;> exact h

/-- C8: the `instantiated` flag is monotonic: it starts false at construction,
`noteInstantiated` sets it to true, and no sequence of member calls ever resets
it, so once `isInstantiated` has returned true it returns true forever. -/
theorem definition_instantiated_monotonic :
    (∀ name, (Definition.create name).isInstantiated = false) ∧
    (∀ d : Definition, d.noteInstantiated.isInstantiated = true) ∧
    (∀ (d : Definition) (ops : List DefinitionOp), d.isInstantiated = true →
      (d.applyOps ops).isInstantiated = true) := by
  refine ⟨fun name => rfl, fun d => rfl, fun d ops h => ?_⟩
  induction ops generalizing d with
  | nil => exact h
  | cons op rest ih =>
    exact ih _ (applyOp_preserves_true d op h)

/-- Witness for C8 at concrete inputs. -/
theorem definition_instantiated_monotonic_witness :
    ((Definition.create "m").noteInstantiated.applyOps
      [DefinitionOp.getKindString, DefinitionOp.isInstantiated]).isInstantiated = true :=
  definition_instantiated_monotonic.2.2 (Definition.create "m").noteInstantiated
    [DefinitionOp.getKindString, DefinitionOp.isInstantiated]
    (definition_instantiated_monotonic.2.1 (Definition.create "m"))

/-- C1: `hasSameType` is true iff the two bodies were built from the same
definition and their resolved parameter lists match pairwise (type parameters
by type identity, value parameters by value equality); in particular any
differing resolved value parameter makes it false. -/
theorem hasSameType_iff (a b : InstanceBodySymbol) :
    (a.hasSameType b = true ↔
      a.definitionId = b.definitionId ∧
        List.Forall₂ (fun p q => paramMatches p q = true) a.parameters b.parameters) ∧
    (∀ (i : Nat) (va vb : Int), a.parameters.get? i = some (.valueParam va) →
      b.parameters.get? i = some (.valueParam vb) → va ≠ vb →
      a.hasSameType b = false) := by
  constructor
  · unfold InstanceBodySymbol.hasSameType
    rw [List.forall₂_iff_zip]
    simp only [Bool.and_eq_true, beq_iff_eq, List.all_eq_true]
    constructor
    · rintro ⟨⟨hdef, hlen⟩, hzip⟩
      exact ⟨hdef, hlen, fun {p q} hmem => hzip (p, q) hmem⟩
    · rintro ⟨hdef, hlen, hzip⟩
      exact ⟨⟨hdef, hlen⟩, fun pq hmem => hzip hmem⟩
  · intro i va vb ha hb hne
    by_contra hcon
    rw [Bool.not_eq_false] at hcon
    unfold InstanceBodySymbol.hasSameType at hcon
    simp only [Bool.and_eq_true, beq_iff_eq, List.all_eq_true] at hcon
    obtain ⟨⟨-, -⟩, hzip⟩ := hcon
    have hmem : (ResolvedParam.valueParam va, ResolvedParam.valueParam vb) ∈
        List.zip a.parameters b.parameters := by
      have hz : (List.zip a.parameters b.parameters).get? i =
          some (ResolvedParam.valueParam va, ResolvedParam.valueParam vb) :=
        (List.get?_zip_eq_some _ _ _ i).2 ⟨ha, hb⟩
      exact List.get?_mem hz
    have := hzip _ hmem
    simp [paramMatches] at this
    exact hne this

/-- Witness for C1: two bodies of the same definition differing in one value
parameter are reported as not having the same type. -/
theorem hasSameType_iff_witness :
    InstanceBodySymbol.hasSameType ⟨0, [.valueParam 1]⟩ ⟨0, [.valueParam 2]⟩ = false :=
  (hasSameType_iff ⟨0, [.valueParam 1]⟩ ⟨0, [.valueParam 2]⟩).2 0 1 2 rfl rfl (by decide)

/-- C2: instantiating a name for which no definition resolves emits exactly
one diagnostic and yields an `UnknownModuleSymbol` whose `moduleName` is the
unresolved name; the later queries (`getPortConnections`, `getPortNames`,
`isChecker`) emit no further diagnostic. -/
theorem unknownModule_one_diagnostic (defs : List DefinitionEntry)
    (instName : String) (stx : HierarchyInstantiationStx)
    (h : lookupDefinition defs stx.moduleName = none) :
    (instantiateFromStx defs instName stx).2.length = 1 ∧
    ∃ u : UnknownModuleSymbol,
      (instantiateFromStx defs instName stx).1 = .unknown u ∧
      u.moduleName = stx.moduleName ∧
      u.getPortConnections.2 = [] ∧ u.getPortNames.2 = [] ∧ u.isChecker.2 = [] := by
  refine ⟨by simp [instantiateFromStx, h], ?_⟩
  refine ⟨{ name := instName, moduleName := stx.moduleName,
            paramExpressions := stx.paramExprs, stx := stx }, ?_, rfl, rfl, rfl, rfl⟩
  simp [instantiateFromStx, h]

/-- Witness for C2 at a concrete unresolved instantiation. -/
theorem unknownModule_one_diagnostic_witness :
    (instantiateFromStx [⟨"top"⟩] "u1"
      ⟨"foo_bar", [7], [PortConnectionStx.ordered 3], false⟩).2.length = 1 :=
  (unknownModule_one_diagnostic [⟨"top"⟩] "u1"
    ⟨"foo_bar", [7], [PortConnectionStx.ordered 3], false⟩ (by decide)).1

/-- C9: `getPortNames` returns one entry per port connection in the
instantiation, and every entry coming from ordered (positional) connection
syntax is the empty string. -/
theorem getPortNames_entries (u : UnknownModuleSymbol) :
    u.getPortNames.1.length = u.stx.portConns.length ∧
    ∀ (i e : Nat), u.stx.portConns.get? i = some (.ordered e) →
      u.getPortNames.1.get? i = some "" := by
  constructor
  · simp [UnknownModuleSymbol.getPortNames]
  · intro i e h
    rw [List.get?_eq_getElem?] at h ⊢
    simp only [UnknownModuleSymbol.getPortNames, List.getElem?_map, h, Option.map_some]
    rfl

/-- Witness for C9 on a symbol with one ordered and one named connection. -/
theorem getPortNames_entries_witness :
    (UnknownModuleSymbol.getPortNames
        ⟨"u1", "foo_bar", [], ⟨"foo_bar", [], [PortConnectionStx.ordered 3,
          PortConnectionStx.named "clk" 4], false⟩⟩).1.get? 0 = some "" :=
  (getPortNames_entries ⟨"u1", "foo_bar", [], ⟨"foo_bar", [],
    [PortConnectionStx.ordered 3, PortConnectionStx.named "clk" 4], false⟩⟩).2 0 3 rfl

theorem instPath_first_step {defs : List DefnNode} {a c : String}
    (h : InstPath defs a c) :
    ∃ (d : DefnNode) (b : String), findDefn defs a = some d ∧ b ∈ d.children ∧
      (b = c ∨ InstPath defs b c) := by
  induction h with
  | step hf hm => exact ⟨_, _, hf, hm, Or.inl rfl⟩
  | trans h1 h2 ih1 _ =>
    obtain ⟨d, b, hf, hm, hrest⟩ := ih1
    refine ⟨d, b, hf, hm, Or.inr ?_⟩
    cases hrest with
    | inl heq => exact heq ▸ h2
    | inr hp => exact .trans hp h2

theorem mem_join_of_mem_map {α β : Type} {f : α → List β} {l : List α} {x : α}
    {y : β} (hx : x ∈ l) (hy : y ∈ f x) : y ∈ (l.map f).flatten :=
  List.mem_flatten.2 ⟨f x, List.mem_map_of_mem f hx, hy⟩

/-- C4: for a definition that instantiates itself — directly or through a
chain of instantiations with no parameter change — depth-bounded elaboration
reports the fatal max-instance-depth diagnostic at every starting depth (and,
being a total function, terminates rather than recursing unboundedly). -/
theorem cyclic_instantiation_detected (defs : List DefnNode) (depth : Nat)
    (n : String) (h : InstPath defs n n) :
    ElabDiag.maxInstanceDepthExceeded ∈ elabDefn defs depth n := by
  induction depth generalizing n with
  | zero => simp [elabDefn]
  | succ depth ih =>
    obtain ⟨d, b, hf, hm, hrest⟩ := instPath_first_step h
    have hb : InstPath defs b b := by
      cases hrest with
      | inl heq => exact heq ▸ h
      | inr hp => exact .trans hp (.step hf hm)
    have hmem := ih b hb
    simp only [elabDefn, hf]
    exact mem_join_of_mem_map hm hmem

/-- Witness for C4: a definition that directly instantiates itself is flagged
at depth 3. -/
theorem cyclic_instantiation_detected_witness :
    ElabDiag.maxInstanceDepthExceeded ∈ elabDefn [⟨"m", ["m"]⟩] 3 "m" :=
  cyclic_instantiation_detected [⟨"m", ["m"]⟩] 3 "m"
    (InstPath.step (d := ⟨"m", ["m"]⟩) (by decide) (by decide))

/-- C3: an instance array built over `[lo, hi]` has `hi − lo + 1` elements,
and element `i`'s last array-path coordinate is `lo + i`. -/
theorem instanceArray_count_and_coords (basePath : List Int) (instName : String)
    (lo hi : Int) (h : lo ≤ hi) :
    (((createInstanceArray basePath instName lo hi).elements.length : Int) = hi - lo + 1) ∧
    ∀ i : Nat, (i : Int) ≤ hi - lo →
      ((createInstanceArray basePath instName lo hi).elements.get? i).map
        (fun e => e.arrayPath.getLast?) = some (some (lo + (i : Int))) := by
  constructor
  · unfold createInstanceArray buildArrayElements
    rw [List.length_map, List.length_range]
    omega
  · intro i hle
    have hlt : i < (hi - lo + 1).toNat := by omega
    unfold createInstanceArray buildArrayElements
    rw [List.get?_eq_getElem?, List.getElem?_map, List.getElem?_range hlt]
    simp [List.getLast?_concat]

/-- Witness for C3 over the range `[2, 4]`. -/
theorem instanceArray_count_and_coords_witness :
    (((createInstanceArray [] "sub" 2 4).elements.length : Int) = 4 - 2 + 1) ∧
    ((createInstanceArray [] "sub" 2 4).elements.get? 1).map
      (fun e => e.arrayPath.getLast?) = some (some ((2 : Int) + ((1 : Nat) : Int))) :=
  ⟨(instanceArray_count_and_coords [] "sub" 2 4 (by decide)).1,
   (instanceArray_count_and_coords [] "sub" 2 4 (by decide)).2 1 (by decide)⟩

theorem resolveFromDefault_no_diag (p : ParameterDecl)
    (h : p.hasDefault = true) : (resolveFromDefault p).2 = [] := by
  unfold resolveFromDefault
  cases hd : p.defaultVal with
  | none => rw [ParameterDecl.hasDefault, hd] at h; exact absurd h (by simp)
  | some v => cases v <;> simp

/-- C5: default-only instantiation of a definition whose every parameter has a
default completes without emitting any diagnostic. -/
theorem createDefault_no_diagnostic (d : DefinitionWithParams)
    (h : ∀ p ∈ d.parameters, p.hasDefault = true) :
    (createDefault d).2 = [] := by
  unfold createDefault
  simp only [List.flatten_eq_nil_iff]
  intro l hl
  obtain ⟨p, hp, rfl⟩ := List.mem_map.1 hl
  exact resolveFromDefault_no_diag p (h p hp)

/-- Witness for C5: a definition with one value-defaulted and one
type-defaulted parameter produces no diagnostic. -/
theorem createDefault_no_diagnostic_witness :
    (createDefault ⟨"m", [⟨"W", some (.value 8)⟩, ⟨"T", some (.type 0)⟩]⟩).2 = [] :=
  createDefault_no_diagnostic ⟨"m", [⟨"W", some (.value 8)⟩, ⟨"T", some (.type 0)⟩]⟩
    (by decide)

theorem lookupParam_createInvalid (d : DefinitionWithParams) (n : String)
    (v : ParamValue) (h : lookupParam (createInvalid d) n = some v) :
    v = ParamValue.poisoned := by
  unfold lookupParam createInvalid at h
  rw [Option.map_eq_some'] at h
  obtain ⟨q, hq, hv⟩ := h
  have hmem := List.mem_of_find?_eq_some hq
  obtain ⟨p, hp, rfl⟩ := List.mem_map.1 hmem
  exact hv.symm

/-- C6: on the instance created by `createInvalid` for a definition with a
required (non-defaulted) parameter, a member expression that does not depend
on any parameter type-checks to a normal type, while every member expression
depending on a (necessarily poisoned) parameter yields the error type rather
than a further resolution failure. -/
theorem createInvalid_member_types (d : DefinitionWithParams)
    (_hreq : ∃ p ∈ d.parameters, p.hasDefault = false) (m : MemberExpr) :
    (m.dependsOnParam = false → typeOfMember (createInvalid d) m = .intType) ∧
    (m.dependsOnParam = true → typeOfMember (createInvalid d) m = .errorType) := by
  clear _hreq
  induction m with
  | lit v =>
    exact ⟨fun _ => rfl, fun h => by simp [MemberExpr.dependsOnParam] at h⟩
  | paramRef n =>
    refine ⟨fun h => by simp [MemberExpr.dependsOnParam] at h, fun _ => ?_⟩
    unfold typeOfMember
    cases hl : lookupParam (createInvalid d) n with
    | none => rfl
    | some v =>
      have := lookupParam_createInvalid d n v hl
      subst this
      rfl
  | binop a b iha ihb =>
    constructor
    · intro h
      simp only [MemberExpr.dependsOnParam, Bool.or_eq_false_iff] at h
      unfold typeOfMember
      rw [iha.1 h.1, ihb.1 h.2]
    · intro h
      simp only [MemberExpr.dependsOnParam, Bool.or_eq_true] at h
      unfold typeOfMember
      cases h with
      | inl ha =>
        rw [iha.2 ha]
      | inr hb =>
        rw [ihb.2 hb]
        cases hta : typeOfMember (createInvalid d) a <;> rfl

/-- Witness for C6: with one required parameter `W`, a literal member checks to
a normal type and a member referencing `W` checks to the error type. -/
theorem createInvalid_member_types_witness :
    (typeOfMember (createInvalid ⟨"m", [⟨"W", none⟩]⟩) (.lit 5) = .intType) ∧
    (typeOfMember (createInvalid ⟨"m", [⟨"W", none⟩]⟩)
      (.binop (.lit 1) (.paramRef "W")) = .errorType) :=
  ⟨(createInvalid_member_types ⟨"m", [⟨"W", none⟩]⟩ ⟨⟨"W", none⟩, by decide, rfl⟩
      (.lit 5)).1 rfl,
   (createInvalid_member_types ⟨"m", [⟨"W", none⟩]⟩ ⟨⟨"W", none⟩, by decide, rfl⟩
      (.binop (.lit 1) (.paramRef "W"))).2 rfl⟩

theorem filterMap_coordOf_idents (l : List String) :
    (l.map PathElem.ident).filterMap PathElem.coordOf = [] := by
  induction l with
  | nil => rfl
  | cons a rest ih => simp [List.filterMap_cons, PathElem.coordOf, ih]

theorem filterMap_coordOf_coords (l : List EnclosingArray) :
    ((l.map fun a => PathElem.coord a.index).filterMap PathElem.coordOf) =
      l.map fun a => a.index := by
  induction l with
  | nil => rfl
  | cons a rest ih => simp [List.filterMap_cons, PathElem.coordOf, ih]

theorem renderCoords_eq (l : List EnclosingArray) :
    renderCoords l = l.reverse.map fun a => PathElem.coord a.index := by
  induction l with
  | nil => rfl
  | cons a rest ih => simp [renderCoords, ih]

theorem foldl_cons_range_eq (l : List EnclosingArray) (acc : List ConstantRange) :
    l.foldl (fun dims a => a.range :: dims) acc =
      (l.reverse.map fun a => a.range) ++ acc := by
  induction l generalizing acc with
  | nil => rfl
  | cons a rest ih => simp [List.foldl_cons, ih]

/-- C7: the array coordinates in the rendered hierarchical path appear in
outer-to-inner order — the declared array-dimension order, i.e. the enclosing
arrays outermost first — and `getArrayDimensions` produces its ranges in that
same order. -/
theorem hierarchicalPath_coord_order (s : ArrayedInstance) :
    ((getHierarchicalPath s).filterMap PathElem.coordOf =
      s.up.reverse.map fun a => a.index) ∧
    (getArrayDimensions s = s.up.reverse.map fun a => a.range) := by
  constructor
  · rw [getHierarchicalPath, renderCoords_eq]
    simp only [List.filterMap_append, filterMap_coordOf_idents, List.filterMap_cons,
      PathElem.coordOf, filterMap_coordOf_coords, List.filterMap_nil,
      List.nil_append, List.append_nil]
  · simp [getArrayDimensions, foldl_cons_range_eq]

/-- C10: `ScriptSession::eval` returns the null constant value whenever the
parsed root is one of the declaration forms of its switch or a statement; a
non-null constant value can only come from an expression-kind root. -/
theorem scriptSession_eval_null (evalE : ScriptSession → SyntaxNode → ConstantValue)
    (s : ScriptSession) (node : SyntaxNode) :
    (isDeclarationForm node.kind = true ∨ isStatementKind node.kind = true →
      ∃ s2, ScriptSession.eval evalE s node = .value none s2) ∧
    (∀ (v : Int) (s2 : ScriptSession),
      ScriptSession.eval evalE s node = .value (some v) s2 →
      isExpressionKind node.kind = true) := by
  obtain ⟨k, ms⟩ := node
  cases k <;>
    refine ⟨fun h => ?_, fun v s2 hv => ?_⟩ <;>
    simp_all [ScriptSession.eval, SyntaxNode.kind, isDeclarationForm,
      isStatementKind, isExpressionKind]

/-- Witness for C10: a module declaration at the root yields the null constant
value. -/
theorem scriptSession_eval_null_witness :
    ∃ s2, ScriptSession.eval (fun _ _ => none) ⟨[], []⟩
      (.mk .ModuleDeclaration []) = .value none s2 :=
  (scriptSession_eval_null (fun _ _ => none) ⟨[], []⟩
    (.mk .ModuleDeclaration [])).1 (Or.inl rfl)

end Slang
